import Mathlib

/-!
Verification of the package-comparison selection logic in
`static/js/main.js` and the map wrapper in `static/js/mapbox.js`.

The JavaScript global `selectedPackages` is a JS `Set` of strings.  A JS
`Set` is duplicate-free and iterates in insertion order, so we embed it as
a `List String` kept in insertion order: `has` is membership, `delete`
removes the (unique) occurrence, `add` appends at the end, `size` is the
length, and `Array.from` is the identity on the underlying order.
Side effects become explicit data: the `alert` call is recorded in an
`alerts` list, and the DOM mutation performed by `updateComparisonButton`
becomes a function on an explicit button state.
-/

namespace ExploreEase

/-- Which of the three branches of `togglePackageComparison` ran.  In the
source the three outcomes are distinguished observably: the membership
shrinks (removed), grows (added), or stays put while an alert fires
(rejected). -/
inductive ToggleOutcome where
  | added
  | removed
  | rejected
deriving DecidableEq, Repr

/-- The alert text of main.js line 125. -/
def capacityAlertMessage : String := "You can compare up to 3 packages at a time."

/-- Observable result of one `togglePackageComparison` call: the new
selection state (the JS Set in insertion order), the branch taken, and the
alert messages emitted during the call. -/
structure ToggleResult where
  state : List String
  outcome : ToggleOutcome
  alerts : List String
deriving DecidableEq, Repr

/-- Embedding of `togglePackageComparison` (main.js lines 118-129):
if the id is present delete it; otherwise add it when `size < 3`, else
alert that the limit was reached.  The function is total: no branch
throws. -/
def togglePackageComparison (packageId : String) (s : List String) : ToggleResult :=
  if packageId ∈ s then
    { state := s.erase packageId, outcome := .removed, alerts := [] }
  else if s.length < 3 then
    { state := s ++ [packageId], outcome := .added, alerts := [] }
  else
    { state := s, outcome := .rejected, alerts := [capacityAlertMessage] }

/-- Run a sequence of toggle calls from a starting state, keeping only the
selection state (the global `selectedPackages` across events). -/
def applyToggles : List String → List String → List String
  | [], s => s
  | id :: rest, s => applyToggles rest (togglePackageComparison id s).state

/-- JS `Array.prototype.join` with a separator string. -/
def joinSep (sep : String) : List String → String
  | [] => ""
  | [x] => x
  | x :: y :: rest => x ++ sep ++ joinSep sep (y :: rest)

/-- The href written by `updateComparisonButton` (main.js line 134):
the template literal `/compare?package_id=` followed by the members
joined with `&package_id=`. -/
def compareHref (s : List String) : String :=
  "/compare?package_id=" ++ joinSep "&package_id=" s

/-- The query parameters the href is meant to carry: one
`package_id=<member>` item per member, in insertion order. -/
def queryParams (s : List String) : List String :=
  s.map (fun m => "package_id=" ++ m)

/-- The mutable state of the `#compareBtn` DOM element: its href
attribute (absent before any assignment) and its CSS display value. -/
structure CompareBtn where
  href : Option String
  display : String
deriving DecidableEq, Repr

/-- Embedding of `updateComparisonButton` (main.js lines 131-137): when
the selection is non-empty the href and display are overwritten; when it
is empty the guard fails and the element is left untouched. -/
def updateComparisonButton (s : List String) (btn : CompareBtn) : CompareBtn :=
  if s.length > 0 then
    { href := some (compareHref s), display := "block" }
  else
    btn

/-- The button before any toggle: no href assigned, hidden. -/
def initialCompareBtn : CompareBtn :=
  { href := none, display := "none" }

/-- One full `togglePackageComparison` call as the page sees it: the set
is toggled and then `updateComparisonButton` runs (main.js line 128). -/
def shellToggle (id : String) (st : List String × CompareBtn) : List String × CompareBtn :=
  let r := togglePackageComparison id st.1
  (r.state, updateComparisonButton r.state st.2)

/-- A marker as built by `ExploreEaseMap.addMarker`: its coordinate (an
opaque payload of type `L`) and the optional popup HTML. -/
structure MapMarker (L : Type) where
  lngLat : L
  popup : Option String
deriving DecidableEq, Repr

/-- The fields of `ExploreEaseMap` the claims touch: the map handle
(`null` when initialization failed, embedded as `none`) and the markers
array. -/
structure ExploreEaseMapState (L H : Type) where
  map : Option H
  markers : List (MapMarker L)
deriving DecidableEq, Repr

/-- Embedding of `ExploreEaseMap.addMarker` (mapbox.js lines 59-81):
`if (!this.map) return null;` and otherwise build a marker, push it onto
`this.markers`, and return it. -/
def addMarker {L H : Type} (st : ExploreEaseMapState L H) (lngLat : L)
    (popup : Option String) : Option (MapMarker L) × ExploreEaseMapState L H :=
  match st.map with
  | none => (none, st)
  | some _ =>
    let marker : MapMarker L := { lngLat := lngLat, popup := popup }
    (some marker, { st with markers := st.markers ++ [marker] })

/-- Helper: one toggle keeps the selection size at most 3. -/
theorem toggle_state_length_le (id : String) (s : List String) (h : s.length ≤ 3) :
    (togglePackageComparison id s).state.length ≤ 3 := by
  unfold togglePackageComparison
  by_cases hmem : id ∈ s
  · simpa [hmem] using le_trans (List.length_erase_le id s) h
  · by_cases hlen : s.length < 3
    · simp [hmem, hlen]
      omega
    · simp [hmem, hlen]
      exact h

/-- Helper: a whole toggle sequence keeps the size at most 3. -/
theorem applyToggles_length_le (ids : List String) (s : List String) (h : s.length ≤ 3) :
    (applyToggles ids s).length ≤ 3 := by
  induction ids generalizing s with
  | nil => simpa [applyToggles] using h
  | cons id rest ih =>
    simpa [applyToggles] using ih _ (toggle_state_length_le id s h)

/-- C1: starting from the empty selection, no sequence of toggle calls
ever brings the number of selected package identifiers above 3; in
particular the size after any prefix of a call sequence is at most 3. -/
theorem selection_card_le_three (ids : List String) :
    (applyToggles ids []).length ≤ 3 :=
  applyToggles_length_le ids [] (by simp)

/-- C3: when the id is not a member and the set already holds exactly 3
members, the toggle rejects the addition atomically: the state is
returned unchanged, the outcome is the rejection value, and the one
emitted notice is exactly the capacity alert text.  The function returns
this value instead of throwing. -/
theorem toggle_rejects_at_capacity (id : String) (s : List String)
    (hmem : id ∉ s) (hlen : s.length = 3) :
    togglePackageComparison id s =
      { state := s, outcome := .rejected, alerts := [capacityAlertMessage] } ∧
    capacityAlertMessage = "You can compare up to 3 packages at a time." := by
  refine ⟨?_, rfl⟩
  simp [togglePackageComparison, hmem, hlen]

/-- Witness for C3 at a concrete full selection. -/
theorem toggle_rejects_at_capacity_witness :
    togglePackageComparison "p4" ["p1", "p2", "p3"] =
      { state := ["p1", "p2", "p3"], outcome := .rejected,
        alerts := [capacityAlertMessage] } ∧
    capacityAlertMessage = "You can compare up to 3 packages at a time." :=
  toggle_rejects_at_capacity "p4" ["p1", "p2", "p3"] (by decide) (by decide)

/-- C5: every toggle call yields the updated membership together with an
outcome value, and the three outcome values exactly characterise the
three observable behaviours: removed when the id was a member, added when
it was absent and the set was below capacity, rejected when it was absent
at capacity; in each case the state is the corresponding update. -/
theorem toggle_outcome_trichotomy (id : String) (s : List String) :
    ((togglePackageComparison id s).outcome = .removed ↔ id ∈ s) ∧
    ((togglePackageComparison id s).outcome = .added ↔ id ∉ s ∧ s.length < 3) ∧
    ((togglePackageComparison id s).outcome = .rejected ↔ id ∉ s ∧ 3 ≤ s.length) ∧
    ((togglePackageComparison id s).outcome = .removed →
      (togglePackageComparison id s).state = s.erase id) ∧
    ((togglePackageComparison id s).outcome = .added →
      (togglePackageComparison id s).state = s ++ [id]) ∧
    ((togglePackageComparison id s).outcome = .rejected →
      (togglePackageComparison id s).state = s) := by
  by_cases hmem : id ∈ s
  · simp [togglePackageComparison, hmem]
  · by_cases hlen : s.length < 3
    all_goals simp [togglePackageComparison, hmem, hlen]
    all_goals omega

/-- C6: when the id is already a member of a duplicate-free selection,
the toggle removes it: the outcome is the removal value, no alert fires,
the id is gone afterwards, and the cardinality drops by exactly one.  No
size hypothesis is needed: removal is never rejected. -/
theorem toggle_removes_member (id : String) (s : List String)
    (hmem : id ∈ s) (hnd : s.Nodup) :
    (togglePackageComparison id s).outcome = .removed ∧
    (togglePackageComparison id s).alerts = [] ∧
    id ∉ (togglePackageComparison id s).state ∧
    (togglePackageComparison id s).state.length + 1 = s.length := by
  have hlen := List.length_erase_of_mem hmem
  have hpos : 0 < s.length := List.length_pos.mpr (List.ne_nil_of_mem hmem)
  refine ⟨?_, ?_, ?_, ?_⟩ <;> simp [togglePackageComparison, hmem]
  · exact hnd.not_mem_erase
  · omega

/-- Witness for C6 at a concrete member of a three-element selection. -/
theorem toggle_removes_member_witness :
    (togglePackageComparison "p2" ["p1", "p2", "p3"]).outcome = .removed ∧
    (togglePackageComparison "p2" ["p1", "p2", "p3"]).alerts = [] ∧
    "p2" ∉ (togglePackageComparison "p2" ["p1", "p2", "p3"]).state ∧
    (togglePackageComparison "p2" ["p1", "p2", "p3"]).state.length + 1 =
      (["p1", "p2", "p3"] : List String).length :=
  toggle_removes_member "p2" ["p1", "p2", "p3"] (by decide) (by decide)

/-- C9: the toggle performs no validation of its input.  Any string that
is absent from a below-capacity selection is appended, by the same branch
regardless of its content; the witness instantiates this at the empty
string, which the spec excludes from the input domain. -/
theorem toggle_no_input_validation (id : String) (s : List String)
    (hmem : id ∉ s) (hlen : s.length < 3) :
    togglePackageComparison id s =
      { state := s ++ [id], outcome := .added, alerts := [] } := by
  simp [togglePackageComparison, hmem, hlen]

/-- Witness for C9: the empty string is added exactly like any other
identifier. -/
theorem toggle_no_input_validation_witness :
    togglePackageComparison "" ["p1"] =
      { state := ["p1", ""], outcome := .added, alerts := [] } :=
  toggle_no_input_validation "" ["p1"] (by decide) (by decide)

/-- C10: when the map handle is null (`none`), `addMarker` returns null
and the whole state, the markers list included, is unchanged; being a
total function, it cannot throw. -/
theorem addMarker_null_map {L H : Type} (st : ExploreEaseMapState L H)
    (lngLat : L) (popup : Option String) (h : st.map = none) :
    addMarker st lngLat popup = (none, st) := by
  unfold addMarker
  rw [h]

/-- Witness for C10 at a concrete failed-initialization state. -/
theorem addMarker_null_map_witness :
    addMarker (⟨none, []⟩ : ExploreEaseMapState Unit Unit) () none =
      (none, (⟨none, []⟩ : ExploreEaseMapState Unit Unit)) :=
  addMarker_null_map ⟨none, []⟩ () none rfl

/-- C7: on any reachable selection state (duplicate-free and within
capacity), toggling the same identifier twice in succession restores
exactly the prior membership.  The insertion order may change (a removed
and re-added member moves to the end), but the set of members is the
same. -/
theorem toggle_twice_restores_membership (id : String) (s : List String)
    (hnd : s.Nodup) (hle : s.length ≤ 3) :
    ∀ x, x ∈ (togglePackageComparison id (togglePackageComparison id s).state).state ↔
      x ∈ s := by
  intro x
  by_cases hmem : id ∈ s
  · have h1 : (togglePackageComparison id s).state = s.erase id := by
      simp [togglePackageComparison, hmem]
    have hlen1 : (s.erase id).length = s.length - 1 := List.length_erase_of_mem hmem
    have hnm : id ∉ s.erase id := hnd.not_mem_erase
    have hpos : 0 < s.length := List.length_pos.mpr (List.ne_nil_of_mem hmem)
    have hlt : (s.erase id).length < 3 := by omega
    have h2 : (togglePackageComparison id (s.erase id)).state = s.erase id ++ [id] := by
      simp [togglePackageComparison, hnm, hlt]
    rw [h1, h2]
    simp only [List.mem_append, hnd.mem_erase_iff, List.mem_singleton]
    constructor
    · rintro (⟨_, hx⟩ | rfl)
      · exact hx
      · exact hmem
    · intro hx
      rcases eq_or_ne x id with rfl | hne
      · exact Or.inr rfl
      · exact Or.inl ⟨hne, hx⟩
  · by_cases hlen : s.length < 3
    · have h1 : (togglePackageComparison id s).state = s ++ [id] := by
        simp [togglePackageComparison, hmem, hlen]
      have hmem2 : id ∈ s ++ [id] := by simp
      have herase : (s ++ [id]).erase id = s := by
        rw [List.erase_append_right _ hmem]
        simp
      rw [h1]
      simp [togglePackageComparison, hmem2, herase]
    · have h1 : (togglePackageComparison id s).state = s := by
        simp [togglePackageComparison, hmem, hlen]
      rw [h1, h1]

/-- Witness for C7: removing and re-adding a selected package on a
concrete two-element selection restores membership of the toggled id. -/
theorem toggle_twice_restores_membership_witness :
    "p1" ∈ (togglePackageComparison "p1"
        (togglePackageComparison "p1" ["p1", "p2"]).state).state ↔
      "p1" ∈ (["p1", "p2"] : List String) :=
  toggle_twice_restores_membership "p1" ["p1", "p2"] (by decide) (by decide) "p1"

/-- Helper: prefixing every element and widening the separator commutes
with the join, on non-empty lists.  This relates the template literal of
main.js line 134 to a per-member query-parameter list. -/
theorem joinSep_map_append (p sep : String) :
    ∀ s : List String, s ≠ [] →
      p ++ joinSep (sep ++ p) s = joinSep sep (s.map (fun m => p ++ m))
  | [], h => absurd rfl h
  | [x], _ => by simp [joinSep]
  | x :: y :: rest, _ => by
    have ih := joinSep_map_append p sep (y :: rest) (by simp)
    simp only [List.map_cons] at ih
    simp only [joinSep, List.map_cons]
    rw [← ih]
    simp [String.append_assoc]

/-- Helper: the character data of a join is the intercalation of the
character data of the pieces. -/
theorem joinSep_data (sep : String) :
    ∀ l : List String, (joinSep sep l).data = List.intercalate sep.data (l.map String.data)
  | [] => by simp [joinSep, List.intercalate]
  | [x] => by simp [joinSep, List.intercalate]
  | x :: y :: rest => by
    have ih := joinSep_data sep (y :: rest)
    simp only [joinSep, String.data_append, ih]
    simp [List.intercalate, List.intersperse_cons_cons, List.append_assoc]

/-- Helper: appending a fixed prefix is injective on strings. -/
theorem append_left_inj (p : String) :
    Function.Injective (fun m : String => p ++ m) := by
  intro a b hab
  have hd : (p ++ a).data = (p ++ b).data := congrArg String.data hab
  simp only [String.data_append] at hd
  exact String.ext (List.append_cancel_left hd)

/-- C2 amended: the unrestricted claim fails because the code does no
URL-encoding (see the counterexample below), so it is amended to members
that do not contain the ampersand character.  For such a non-empty
duplicate-free selection, the derived href is `/compare?` followed by the
ampersand-join of the query parameters; there is exactly one parameter
per member (same length, in order), the parameters are pairwise distinct,
and splitting the query string on the ampersand character recovers
exactly the parameter `package_id=<member>` for each member. -/
theorem compareHref_query (s : List String) (hne : s ≠ []) (hnd : s.Nodup)
    (hamp : ∀ m ∈ s, ('&' : Char) ∉ m.data) :
    compareHref s = "/compare?" ++ joinSep "&" (queryParams s) ∧
    (queryParams s).length = s.length ∧
    (queryParams s).Nodup ∧
    (joinSep "&" (queryParams s)).data.splitOn '&' = (queryParams s).map String.data := by
  refine ⟨?_, by simp [queryParams], hnd.map (append_left_inj "package_id="), ?_⟩
  · have e1 : ("/compare?package_id=" : String) = "/compare?" ++ "package_id=" := by decide
    have e2 : ("&package_id=" : String) = "&" ++ "package_id=" := by decide
    calc compareHref s
        = "/compare?package_id=" ++ joinSep "&package_id=" s := rfl
      _ = ("/compare?" ++ "package_id=") ++ joinSep ("&" ++ "package_id=") s := by
          rw [← e1, ← e2]
      _ = "/compare?" ++ ("package_id=" ++ joinSep ("&" ++ "package_id=") s) :=
          String.append_assoc ..
      _ = "/compare?" ++ joinSep "&" (queryParams s) := by
          rw [joinSep_map_append "package_id=" "&" s hne]
          rfl
  · rw [joinSep_data]
    have hsep : ("&" : String).data = ['&'] := rfl
    rw [hsep]
    apply List.splitOn_intercalate
    · intro l hl
      obtain ⟨q, hq, rfl⟩ := List.mem_map.mp hl
      obtain ⟨m, hm, rfl⟩ := List.mem_map.mp hq
      rw [String.data_append]
      intro hin
      rcases List.mem_append.mp hin with h | h
      · exact absurd h (by decide)
      · exact hamp m hm h
    · simp [queryParams, hne]

/-- C2 counterexample: the claim as stated, with no restriction on the
member strings, is false.  The member a&package_id=a is reachable (one
toggle from empty adds it; the code validates nothing), the selection
then has exactly one member, yet the produced query string
package_id=a&package_id=a splits on the ampersand into two identical
package_id parameters: duplicates, and two parameters for one member. -/
theorem compareHref_duplicate_params :
    (applyToggles ["a&package_id=a"] []).length = 1 ∧
    compareHref (applyToggles ["a&package_id=a"] []) =
      "/compare?" ++ "package_id=a&package_id=a" ∧
    ("package_id=a&package_id=a" : String).data.splitOn '&' =
      [("package_id=a" : String).data, ("package_id=a" : String).data] ∧
    ¬ (("package_id=a&package_id=a" : String).data.splitOn '&').Nodup := by
  refine ⟨by decide, by decide, by decide, by decide⟩

/-- Witness for the amended C2 on the concrete selection with members p1
and p2. -/
theorem compareHref_query_witness :
    compareHref ["p1", "p2"] = "/compare?" ++ joinSep "&" (queryParams ["p1", "p2"]) ∧
    (queryParams ["p1", "p2"]).length = (["p1", "p2"] : List String).length ∧
    (queryParams ["p1", "p2"]).Nodup ∧
    (joinSep "&" (queryParams ["p1", "p2"])).data.splitOn '&' =
      (queryParams ["p1", "p2"]).map String.data :=
  compareHref_query ["p1", "p2"] (by decide) (by decide) (by decide)

/-- C8 counterexample: the two histories toggle(p1);toggle(p2) and
toggle(p2);toggle(p1) end with the same membership set (the states are
permutations of each other) yet produce different hrefs, because the join
follows insertion order.  The link is therefore not a function of the
membership set alone. -/
theorem compareHref_not_membership_determined :
    (applyToggles ["p1", "p2"] []).Perm (applyToggles ["p2", "p1"] []) ∧
    compareHref (applyToggles ["p1", "p2"] []) ≠
      compareHref (applyToggles ["p2", "p1"] []) := by
  constructor
  · decide
  · decide

/-- C8 amended: the href is a deterministic function of the
insertion-ordered selection state, so any two toggle histories that end
in the same ordered state produce the identical link. -/
theorem compareHref_deterministic (h1 h2 : List String)
    (hs : applyToggles h1 [] = applyToggles h2 []) :
    compareHref (applyToggles h1 []) = compareHref (applyToggles h2 []) := by
  rw [hs]

/-- Witness for the amended C8: two different histories ending in the same
ordered state get the same link. -/
theorem compareHref_deterministic_witness :
    compareHref (applyToggles ["p1"] []) =
      compareHref (applyToggles ["p2", "p2", "p1"] []) :=
  compareHref_deterministic ["p1"] ["p2", "p2", "p1"] (by decide)

/-- C4 evaluated at its failing input: after toggle(p1) then toggle(p1)
from the initial page state the selection is empty again, yet the button
keeps the stale href `/compare?package_id=p1` and stays displayed,
because `updateComparisonButton` only acts when the selection is
non-empty (main.js line 133) and never hides the button or clears the
href on an empty selection. -/
theorem stale_link_after_emptying :
    (shellToggle "p1" (shellToggle "p1" ([], initialCompareBtn))).1 = [] ∧
    (shellToggle "p1" (shellToggle "p1" ([], initialCompareBtn))).2 =
      { href := some "/compare?package_id=p1", display := "block" } := by
  constructor
  · decide
  · decide

end ExploreEase
